import Mathlib

/-!
Shallow embedding of `custom_components/esphome_update_manager/update_queue.py`
(class `UpdateQueue` and its helpers) together with the addon helpers it calls
from `__init__.py`.  External collaborators (Home Assistant state registry,
the update service, the Supervisor addon API, the event bus, the clock) are
modelled as explicit inputs; the event bus is modelled as an output trace.
Time is modelled as a natural-number clock: `datetime.now()` reads the clock
and advances it, and the event-loop time used by the polling loops advances
by the amount slept.
-/

namespace EspUpdateManager

/-! ## Constants from `const.py` and `update_queue.py` -/

def DEFAULT_UPDATE_TIMEOUT : Nat := 600
def DEFAULT_DELAY_BETWEEN : Nat := 1
def INITIAL_PROGRESS_TIMEOUT : Nat := 60
def MAX_UNAVAILABLE_DURATION : Nat := 120

def STATUS_QUEUED : String := "queued"
def STATUS_RUNNING : String := "running"
def STATUS_SUCCESS : String := "success"
def STATUS_FAILED : String := "failed"
def STATUS_SKIPPED : String := "skipped"
def STATUS_CANCELLED : String := "cancelled"

/-! ## Data model -/

/-- A Home Assistant entity state as read by `hass.states.get`: the `state`
string plus the `in_progress` attribute consulted via `ATTR_IN_PROGRESS`. -/
structure HAState where
  state : String
  in_progress : Bool
deriving Repr, DecidableEq

/-- `DeviceUpdateResult` from `update_queue.py`. -/
structure DeviceUpdateResult where
  entity_id : String
  status : String
  started_at : Option Nat
  finished_at : Option Nat
  error : Option String
deriving Repr, DecidableEq

/-- `DeviceUpdateResult.__init__`: fresh queued job with empty fields. -/
def DeviceUpdateResult.mk0 (eid : String) : DeviceUpdateResult :=
  ⟨eid, STATUS_QUEUED, none, none, none⟩

/-- One entry of the `results` property: the dict built per job. -/
structure ResultDict where
  entity_id : String
  status : String
  started_at : Option Nat
  finished_at : Option Nat
  error : Option String
deriving Repr, DecidableEq

def toResultDict (r : DeviceUpdateResult) : ResultDict :=
  ⟨r.entity_id, r.status, r.started_at, r.finished_at, r.error⟩

/-- The `results` property: the per-job dict list, in queue order. -/
def results (q : List DeviceUpdateResult) : List ResultDict :=
  q.map toResultDict

/-- One step of building the `summary` dict: `counts[s] = counts.get(s, 0) + 1`
on an insertion-ordered association list. -/
def bump : List (String × Nat) → String → List (String × Nat)
  | [], st => [(st, 1)]
  | (k, v) :: rest, st =>
      if k = st then (k, v + 1) :: rest else (k, v) :: bump rest st

/-- The `summary` property: status → count over the queue. -/
def summary (q : List DeviceUpdateResult) : List (String × Nat) :=
  q.foldl (fun c r => bump c r.status) []

/-- Events fired on the `hass.bus`, with their payload snapshot. -/
inductive Event where
  | progress (rs : List ResultDict) (sm : List (String × Nat))
  | finished (rs : List ResultDict) (sm : List (String × Nat))
deriving Repr, DecidableEq

def isProgressEvent : Event → Bool
  | .progress _ _ => true
  | .finished _ _ => false

def countProgress (evs : List Event) : Nat :=
  (evs.filter isProgressEvent).length

/-! ## `_is_entity_available` -/

/-- `_is_entity_available`: `None` is unavailable, and so are the state
strings `"unavailable"` and `"unknown"`. -/
def is_entity_available (st : Option HAState) : Bool :=
  match st with
  | none => false
  | some s => !(s.state == "unavailable" || s.state == "unknown")

/-! ## `_wait_for_completion` -/

/-- Substring test used for `"Error compiling" in error_msg`. -/
def strContains (s pat : String) : Bool :=
  (s.splitOn pat).length != 1

/-- The polling loop body of `_wait_for_completion`.  `ticks k` gives, for the
k-th iteration, the `_cancelled` flag and the `hass.states.get` reading at
that poll.  `now` is the event-loop time, advanced by each `asyncio.sleep`;
`us` is `unavailable_since`; `saw` is `saw_in_progress`. -/
def waitLoop (ticks : Nat → Bool × Option HAState) (k now endTime : Nat)
    (us : Option Nat) (saw : Bool) : Bool × Option String :=
  if _h : now < endTime then
    match ticks k with
    | (true, _) => (false, some "Cancelled by user")
    | (false, none) =>
        match us with
        | none => waitLoop ticks (k + 1) (now + 10) endTime (some now) saw
        | some t =>
            if now - t > MAX_UNAVAILABLE_DURATION then
              (false, some "Device disappeared and did not come back")
            else
              waitLoop ticks (k + 1) (now + 10) endTime (some t) saw
    | (false, some st) =>
        if st.state == "unavailable" then
          match us with
          | none => waitLoop ticks (k + 1) (now + 10) endTime (some now) saw
          | some t =>
              if now - t > MAX_UNAVAILABLE_DURATION then
                if saw then
                  (false, some "Device went offline during update and did not recover")
                else
                  (false, some "Device became unavailable")
              else
                waitLoop ticks (k + 1) (now + 10) endTime (some t) saw
        else
          let saw2 := saw || st.in_progress
          if !st.in_progress && st.state == "off" then (true, none)
          else if !st.in_progress && st.state == "on" then
            waitLoop ticks (k + 1) (now + 10) endTime none saw2
          else
            waitLoop ticks (k + 1) (now + 5) endTime none saw2
  else
    if saw then (false, some "Update timed out — device may still be updating")
    else (false, some "Update timed out — no progress detected")
termination_by endTime - now
decreasing_by all_goals omega

/-- `_wait_for_completion`: initial 5 s settle delay, then the polling loop
bounded by `now0 + timeout`. -/
def wait_for_completion (ticks : Nat → Bool × Option HAState)
    (now0 timeout : Nat) : Bool × Option String :=
  waitLoop ticks 0 (now0 + 5) (now0 + timeout) none false

/-! ## `_update_single` -/

/-- Outcome of the `update.install` service call: returns normally, raises an
ordinary `Exception` with a message, or raises `asyncio.CancelledError`
(which `except Exception` does not catch). -/
inductive InstallOutcome where
  | ok
  | err (msg : String)
  | cancelledErr
deriving Repr, DecidableEq

/-- The external readings one job consumes: the availability probe, the
install-call outcome, the post-install state read, the waiter tick stream
with its loop start time, and the `_cancelled` flag as read after the waiter
returns. -/
structure JobEnv where
  avail : Option HAState
  install : InstallOutcome
  post : Option HAState
  wTicks : Nat → Bool × Option HAState
  wNow : Nat
  cancelledAfter : Bool

/-- Result of one `_update_single` call: the mutated job, the advanced
wall clock, whether the install service was invoked, and whether
`asyncio.CancelledError` escaped the call. -/
structure JobStepOut where
  item : DeviceUpdateResult
  clock : Nat
  installCalled : Bool
  raisedCancelled : Bool
deriving Repr

/-- `_update_single`.  Marks the job Running and stamps the start time, then
follows the probe/trigger/waiter branches; the `finally` clause stamps a
finish time whenever one is not yet set. -/
def update_single (env : JobEnv) (item0 : DeviceUpdateResult) (c : Nat) :
    JobStepOut :=
  let item1 := { item0 with status := STATUS_RUNNING, started_at := some c }
  let c1 := c + 1
  if is_entity_available env.avail = false then
    ⟨{ item1 with
        status := STATUS_SKIPPED
        error := some "Device unavailable — skipped"
        finished_at := some c1 },
      c1 + 1, false, false⟩
  else
    match env.install with
    | .err msg =>
        let e :=
          if strContains msg "Error compiling" then
            "Compile failed — " ++ msg
          else
            "Install failed — " ++ msg
        ⟨{ item1 with
            status := STATUS_FAILED
            error := some e
            finished_at := some c1 },
          c1 + 1, true, false⟩
    | .cancelledErr =>
        ⟨{ item1 with
            status := STATUS_CANCELLED
            error := some "Cancelled by user"
            finished_at := some c1 },
          c1 + 1, true, true⟩
    | .ok =>
        let fast :=
          match env.post with
          | some st => st.state == "off"
          | none => false
        if fast then
          ⟨{ item1 with status := STATUS_SUCCESS, finished_at := some c1 },
            c1 + 1, true, false⟩
        else
          let wr := wait_for_completion env.wTicks env.wNow DEFAULT_UPDATE_TIMEOUT
          let item2 :=
            if env.cancelledAfter then
              { item1 with
                  status := STATUS_CANCELLED
                  error := some "Cancelled by user" }
            else if wr.1 then
              { item1 with status := STATUS_SUCCESS }
            else
              { item1 with
                  status := STATUS_FAILED
                  error := some (wr.2.getD "Update failed") }
          ⟨{ item2 with finished_at := some c1 }, c1 + 1, true, false⟩

/-! ## Addon hooks (`_stop_addon`, `_restart_addon` and the Supervisor
helpers from `__init__.py`) -/

/-- Supervisor addon info as returned by `async_get_addon_info`: the dict,
reduced to the field the queue reads (`state`; `name` only feeds logging). -/
structure AddonInfo where
  state : Option String
deriving Repr, DecidableEq

/-- `_stop_addon`: returns the resulting `_addon_was_running` flag and how
many times `async_stop_addon` was invoked. -/
def stop_addon (slug : Option String) (info : Option AddonInfo)
    (stopOk : Bool) : Bool × Nat :=
  match slug with
  | none => (false, 0)
  | some _ =>
      match info with
      | none => (false, 0)
      | some i =>
          if i.state == some "started" then
            if stopOk then (true, 1) else (false, 1)
          else (false, 0)

/-- `_restart_addon`: returns how many times `async_start_addon` was invoked
(its success only affects logging). -/
def restart_addon (slug : Option String) (wasRunning : Bool) : Nat :=
  match slug with
  | none => 0
  | some _ => if wasRunning then 1 else 0

/-! ## `_run` -/

/-- Environment of one whole run: the addon queries, the value the
`_cancelled` flag has at the pre-job check for each index, and the per-job
external readings. -/
structure RunEnv where
  addonInfo : Option AddonInfo
  stopOk : Bool
  startOk : Bool
  preCancel : Nat → Bool
  jobs : Nat → JobEnv

/-- Output of the job-iteration loop inside `_run`. -/
structure LoopOut where
  queue : List DeviceUpdateResult
  clock : Nat
  events : List Event
  raised : Bool
deriving Repr

/-- The `for i, item in enumerate(self._queue)` loop of `_run`.  `pending`
is the not-yet-visited tail, `done` the already-visited prefix (in order).
A job marked Cancelled by the pre-job check is skipped with `continue` —
no progress event.  After `_update_single` returns normally, a progress
event with the full current `results`/`summary` snapshot is fired; if it
raised `asyncio.CancelledError`, the loop is abandoned with the queue as it
stands.  The inter-job delay (`_wait_for_cancel` under `wait_for_timeout`)
only consumes time and is not observable in this state. -/
def runJobs (env : RunEnv) :
    List DeviceUpdateResult → Nat → List DeviceUpdateResult → Nat →
    List Event → LoopOut
  | [], _, done, c, evs => ⟨done, c, evs, false⟩
  | item :: rest, i, done, c, evs =>
      if env.preCancel i then
        runJobs env rest (i + 1)
          (done ++ [{ item with status := STATUS_CANCELLED }]) c evs
      else
        let out := update_single (env.jobs i) item c
        if out.raisedCancelled then
          ⟨done ++ [out.item] ++ rest, out.clock, evs, true⟩
        else
          let q := done ++ [out.item] ++ rest
          runJobs env rest (i + 1) (done ++ [out.item]) out.clock
            (evs ++ [Event.progress (results q) (summary q)])

/-- The `except asyncio.CancelledError` handler in `_run`: still-Queued jobs
become Cancelled in place; a Running job is demoted to Cancelled with the
error text and a finish timestamp. -/
def cancelHandler : List DeviceUpdateResult → Nat →
    List DeviceUpdateResult × Nat
  | [], c => ([], c)
  | it :: rest, c =>
      if it.status == STATUS_QUEUED then
        let (rest2, c2) := cancelHandler rest c
        ({ it with status := STATUS_CANCELLED } :: rest2, c2)
      else if it.status == STATUS_RUNNING then
        let (rest2, c2) := cancelHandler rest (c + 1)
        ({ it with
            status := STATUS_CANCELLED
            error := some "Cancelled by user"
            finished_at := some c } :: rest2, c2)
      else
        let (rest2, c2) := cancelHandler rest c
        (it :: rest2, c2)

/-- Output of one whole `_run`: the final queue, clock, fired events, the
addon call counts, the recorded addon memory, and the final `_running`. -/
structure RunOut where
  queue : List DeviceUpdateResult
  clock : Nat
  events : List Event
  stops : Nat
  starts : Nat
  wasRunning : Bool
  running : Bool
deriving Repr

/-- `_run`: addon pre-hook, the job loop, the `CancelledError` handler when
the loop was abandoned, then the `finally` block — addon post-hook,
`_running = False`, and the finished event with the final snapshot. -/
def run (env : RunEnv) (slug : Option String)
    (queue0 : List DeviceUpdateResult) (c0 : Nat) : RunOut :=
  let pre := stop_addon slug env.addonInfo env.stopOk
  let lo := runJobs env queue0 0 [] c0 []
  let post :=
    if lo.raised then cancelHandler lo.queue lo.clock else (lo.queue, lo.clock)
  let starts := restart_addon slug pre.1
  ⟨post.1, post.2,
    lo.events ++ [Event.finished (results post.1) (summary post.1)],
    pre.2, starts, pre.1, false⟩

/-! ## The public orchestrator entry points (`start`, `cancel`, `clear`) -/

/-- The mutable fields of `UpdateQueue` outside a run. -/
structure QState where
  queue : List DeviceUpdateResult
  running : Bool
  cancelled : Bool
  currentIndex : Nat
  stopAddonSlug : Option String
  addonWasRunning : Bool
  taskActive : Bool
  taskCancelRequested : Bool
deriving Repr

/-- `UpdateQueue.start`: raises `RuntimeError` (returning the state
untouched) while running; otherwise replaces the queue with fresh Queued
jobs, resets the flags, and launches the run task. -/
def start (s : QState) (ids : List String) (slug : Option String) :
    QState × Option String :=
  if s.running then
    (s, some "Update queue is already running")
  else
    ({ queue := ids.map DeviceUpdateResult.mk0
       running := true
       cancelled := false
       currentIndex := 0
       stopAddonSlug := slug
       addonWasRunning := false
       taskActive := true
       taskCancelRequested := false }, none)

/-- `UpdateQueue.cancel`: sets `_cancelled`, and requests cancellation of
the run task when one is active; nothing else is touched — in particular no
job field changes here, only later at the task's next suspension point. -/
def cancel (s : QState) : QState :=
  { s with
      cancelled := true
      taskCancelRequested := s.taskCancelRequested || s.taskActive }

/-- `UpdateQueue.clear`: raises while running, otherwise empties the queue. -/
def clear (s : QState) : QState × Option String :=
  if s.running then
    (s, some "Cannot clear while updates are running")
  else
    ({ s with queue := [] }, none)

/-! ## Helper lemmas -/

theorem bump_snd_sum (c : List (String × Nat)) (st : String) :
    ((bump c st).map Prod.snd).sum = ((c.map Prod.snd).sum) + 1 := by
  induction c with
  | nil => simp [bump]
  | cons hd tl ih =>
      obtain ⟨k, v⟩ := hd
      by_cases hk : k = st
      · simp [bump, hk]
        omega
      · simp [bump, hk, ih]
        omega

theorem summary_foldl_sum (q : List DeviceUpdateResult)
    (c : List (String × Nat)) :
    (((q.foldl (fun c r => bump c r.status) c)).map Prod.snd).sum
      = (c.map Prod.snd).sum + q.length := by
  induction q generalizing c with
  | nil => simp
  | cons hd tl ih =>
      simp only [List.foldl_cons, ih, bump_snd_sum, List.length_cons]
      omega

/-! ## Theorems for the claims -/

/-- C7: for every snapshot, the per-status counts in `summary` sum to the
length of the `results` list. -/
theorem summary_counts_sum_to_results_length (q : List DeviceUpdateResult) :
    ((summary q).map Prod.snd).sum = (results q).length := by
  simp [summary, results, summary_foldl_sum]

/-- C1: `cancel` only sets the cancellation flag (and requests cancellation
of the background task): the job sequence — every status, timestamp and
error text — the running flag and the addon memory are untouched. -/
theorem cancel_frame (s : QState) :
    (cancel s).queue = s.queue ∧ (cancel s).cancelled = true ∧
      (cancel s).running = s.running ∧
      (cancel s).addonWasRunning = s.addonWasRunning ∧
      (cancel s).currentIndex = s.currentIndex := by
  simp [cancel]

/-- C6: `start` while a run is in progress fails with the AlreadyRunning
error and returns the state entirely unchanged — job sequence, statuses,
cancellation flag and addon memory included. -/
theorem start_while_running_rejected (s : QState) (ids : List String)
    (slug : Option String) (h : s.running = true) :
    start s ids slug = (s, some "Update queue is already running") := by
  simp [start, h]

theorem start_while_running_rejected_witness :
    start ⟨[DeviceUpdateResult.mk0 "a"], true, false, 0, none, false, true,
        false⟩ ["b"] none
      = (⟨[DeviceUpdateResult.mk0 "a"], true, false, 0, none, false, true,
        false⟩, some "Update queue is already running") :=
  start_while_running_rejected _ _ _ rfl

/-- `_update_single` always stamps the start time first, in every branch. -/
theorem update_single_started (env : JobEnv) (item0 : DeviceUpdateResult)
    (c : Nat) : (update_single env item0 c).item.started_at = some c := by
  cases henv : env.install <;>
    by_cases hav : is_entity_available env.avail = false <;>
      simp [update_single, henv, hav] <;> split_ifs <;> rfl

/-- `_update_single` raises `asyncio.CancelledError` only when the install
call did. -/
theorem update_single_raised (env : JobEnv) (item0 : DeviceUpdateResult)
    (c : Nat) (h : env.install ≠ InstallOutcome.cancelledErr) :
    (update_single env item0 c).raisedCancelled = false := by
  cases henv : env.install <;> simp [henv] at h ⊢ <;>
    by_cases hav : is_entity_available env.avail = false <;>
      simp [update_single, henv, hav] <;> split_ifs <;> rfl

/-- C5: a job whose initial probe is unreachable — the state record missing
or explicitly `"unavailable"` — ends Skipped with the device-unavailable
reason and a finish timestamp, and the install service is never invoked. -/
theorem probe_unreachable_skips (env : JobEnv) (item0 : DeviceUpdateResult)
    (c : Nat)
    (h : env.avail = none ∨
      ∃ st, env.avail = some st ∧ st.state = "unavailable") :
    (update_single env item0 c).item.status = STATUS_SKIPPED ∧
      (update_single env item0 c).item.error
        = some "Device unavailable — skipped" ∧
      (update_single env item0 c).item.finished_at = some (c + 1) ∧
      (update_single env item0 c).installCalled = false := by
  have hav : is_entity_available env.avail = false := by
    rcases h with h | ⟨st, hst, hstate⟩
    · simp [is_entity_available, h]
    · simp [is_entity_available, hst, hstate]
  unfold update_single
  simp [hav]

theorem probe_unreachable_skips_witness :
    (update_single ⟨none, InstallOutcome.ok, none, fun _ => (false, none), 0,
          false⟩ (DeviceUpdateResult.mk0 "u") 7).item.status
        = STATUS_SKIPPED ∧
      (update_single ⟨none, InstallOutcome.ok, none, fun _ => (false, none),
          0, false⟩ (DeviceUpdateResult.mk0 "u") 7).item.error
        = some "Device unavailable — skipped" ∧
      (update_single ⟨none, InstallOutcome.ok, none, fun _ => (false, none),
          0, false⟩ (DeviceUpdateResult.mk0 "u") 7).item.finished_at
        = some 8 ∧
      (update_single ⟨none, InstallOutcome.ok, none, fun _ => (false, none),
          0, false⟩ (DeviceUpdateResult.mk0 "u") 7).installCalled = false :=
  probe_unreachable_skips _ _ _ (Or.inl rfl)

/-- C8: a probe reading with state `"unknown"` — not only missing or
`"unavailable"` — is reported unreachable by `_is_entity_available`, so the
job ends Skipped and the install service is not invoked. -/
theorem probe_unknown_skips (env : JobEnv) (item0 : DeviceUpdateResult)
    (c : Nat) (ip : Bool) (h : env.avail = some ⟨"unknown", ip⟩) :
    is_entity_available env.avail = false ∧
      (update_single env item0 c).item.status = STATUS_SKIPPED ∧
      (update_single env item0 c).installCalled = false := by
  have hav : is_entity_available env.avail = false := by
    simp [is_entity_available, h]
  refine ⟨hav, ?_, ?_⟩ <;>
    · unfold update_single
      simp [hav]

theorem probe_unknown_skips_witness :
    is_entity_available (some ⟨"unknown", false⟩) = false ∧
      (update_single ⟨some ⟨"unknown", false⟩, InstallOutcome.ok, none,
          fun _ => (false, none), 0, false⟩
          (DeviceUpdateResult.mk0 "v") 0).item.status = STATUS_SKIPPED ∧
      (update_single ⟨some ⟨"unknown", false⟩, InstallOutcome.ok, none,
          fun _ => (false, none), 0, false⟩
          (DeviceUpdateResult.mk0 "v") 0).installCalled = false :=
  probe_unknown_skips
    ⟨some ⟨"unknown", false⟩, InstallOutcome.ok, none,
      fun _ => (false, none), 0, false⟩
    (DeviceUpdateResult.mk0 "v") 0 false rfl

/-- A waiter input where in-progress is observed on the first poll and the
entity is missing from the registry on every later poll, never cancelled. -/
def ticksProgressThenMissing : Nat → Bool × Option HAState :=
  fun k => (false, if k = 0 then some ⟨"on", true⟩ else none)

/-- C3 counterexample: an execution that observes an in-progress reading and
then stays continuously missing past the grace window returns the
missing-specific reason, not the history-selected
went-offline-did-not-recover reason the claim promises for any run with a
prior in-progress reading. -/
theorem waiter_missing_after_progress_cex :
    wait_for_completion ticksProgressThenMissing 0 DEFAULT_UPDATE_TIMEOUT
        = (false, some "Device disappeared and did not come back") ∧
      (ticksProgressThenMissing 0).2 = some ⟨"on", true⟩ ∧
      ("Device disappeared and did not come back" : String)
        ≠ "Device went offline during update and did not recover" := by
  refine ⟨?_, rfl, by decide⟩
  simp [wait_for_completion, waitLoop, ticksProgressThenMissing,
    MAX_UNAVAILABLE_DURATION, DEFAULT_UPDATE_TIMEOUT]

/-- C3 amended: at the poll where the continuous missing/unavailable spell
exceeds the grace window (before the overall deadline), the waiter fails
with: the reason "Device disappeared and did not come back" whenever the
target is missing, regardless of whether in-progress was ever observed; and,
when the target is merely unavailable, the history-selected reason — went
offline during update if in-progress was ever observed, became unavailable
otherwise. -/
theorem waiter_grace_reasons (ticks : Nat → Bool × Option HAState)
    (k now endTime t : Nat) (saw : Bool)
    (h1 : now < endTime) (h2 : now - t > MAX_UNAVAILABLE_DURATION) :
    (ticks k = (false, none) →
      waitLoop ticks k now endTime (some t) saw
        = (false, some "Device disappeared and did not come back")) ∧
    (∀ ip, ticks k = (false, some ⟨"unavailable", ip⟩) →
      waitLoop ticks k now endTime (some t) saw
        = (false, some (if saw then
            "Device went offline during update and did not recover"
          else "Device became unavailable"))) := by
  constructor
  · intro h
    rw [waitLoop]
    simp [h1, h, h2]
  · intro ip h
    rw [waitLoop]
    by_cases hs : saw <;> simp [h1, h, h2, hs]

theorem waiter_grace_reasons_witness :
    waitLoop (fun _ => (false, none)) 0 131 600 (some 0) true
        = (false, some "Device disappeared and did not come back") ∧
      waitLoop (fun _ => (false, some ⟨"unavailable", false⟩)) 0 131 600
          (some 0) false
        = (false, some "Device became unavailable") := by
  constructor
  · exact (waiter_grace_reasons (fun _ => (false, none)) 0 131 600 0 true
      (by decide) (by decide)).1 rfl
  · have h := (waiter_grace_reasons
      (fun _ => (false, some ⟨"unavailable", false⟩)) 0 131 600 0 false
      (by decide) (by decide)).2 false rfl
    simpa using h

/-- C4: when the addon is queried as running (Supervisor state
`"started"`), `_run` invokes stop exactly once before the batch; a failed
stop clears the addon memory so start is never invoked; a successful stop
yields exactly one start call at run end, whatever the batch did. -/
theorem addon_stop_start_discipline (env : RunEnv) (a : String)
    (info : AddonInfo) (q : List DeviceUpdateResult) (c0 : Nat)
    (hinfo : env.addonInfo = some info) (hst : info.state = some "started") :
    (run env (some a) q c0).stops = 1 ∧
      (env.stopOk = false → (run env (some a) q c0).starts = 0) ∧
      (env.stopOk = true → (run env (some a) q c0).starts = 1) := by
  unfold run
  cases hok : env.stopOk <;>
    simp [stop_addon, restart_addon, hinfo, hst, hok]

theorem addon_stop_start_discipline_witness :
    (run ⟨some ⟨some "started"⟩, true, true, fun _ => true,
        fun _ => ⟨none, InstallOutcome.ok, none, fun _ => (false, none), 0,
          false⟩⟩ (some "core_ssh") [DeviceUpdateResult.mk0 "a"] 0).stops
        = 1 ∧
      (run ⟨some ⟨some "started"⟩, true, true, fun _ => true,
        fun _ => ⟨none, InstallOutcome.ok, none, fun _ => (false, none), 0,
          false⟩⟩ (some "core_ssh") [DeviceUpdateResult.mk0 "a"] 0).starts
        = 1 := by
  have h := addon_stop_start_discipline
    ⟨some ⟨some "started"⟩, true, true, fun _ => true,
      fun _ => ⟨none, InstallOutcome.ok, none, fun _ => (false, none), 0,
        false⟩⟩ "core_ssh" ⟨some "started"⟩ [DeviceUpdateResult.mk0 "a"] 0
    rfl rfl
  exact ⟨h.1, h.2.2 rfl⟩

/-- C10: starting with an empty target list while Idle succeeds and marks
the run Running; the run body fires no progress event, fires exactly one
finished event with empty results and empty summary, and ends Idle. -/
theorem empty_batch_run (s : QState) (env : RunEnv) (c0 : Nat)
    (h : s.running = false) :
    (start s [] none).2 = none ∧
      (start s [] none).1.running = true ∧
      (start s [] none).1.queue = [] ∧
      (run env none [] c0).events = [Event.finished [] []] ∧
      countProgress (run env none [] c0).events = 0 ∧
      (run env none [] c0).running = false := by
  refine ⟨?_, ?_, ?_, ?_, ?_, ?_⟩ <;>
    simp [start, h, run, runJobs, stop_addon, restart_addon, results,
      summary, countProgress, isProgressEvent]

theorem empty_batch_run_witness :
    (start ⟨[], false, false, 0, none, false, false, false⟩ [] none).2
        = none ∧
      (start ⟨[], false, false, 0, none, false, false, false⟩ []
          none).1.running = true ∧
      (start ⟨[], false, false, 0, none, false, false, false⟩ []
          none).1.queue = [] ∧
      (run ⟨none, false, false, fun _ => false,
          fun _ => ⟨none, InstallOutcome.ok, none, fun _ => (false, none), 0,
            false⟩⟩ none [] 0).events = [Event.finished [] []] ∧
      countProgress (run ⟨none, false, false, fun _ => false,
          fun _ => ⟨none, InstallOutcome.ok, none, fun _ => (false, none), 0,
            false⟩⟩ none [] 0).events = 0 ∧
      (run ⟨none, false, false, fun _ => false,
          fun _ => ⟨none, InstallOutcome.ok, none, fun _ => (false, none), 0,
            false⟩⟩ none [] 0).running = false :=
  empty_batch_run ⟨[], false, false, 0, none, false, false, false⟩
    ⟨none, false, false, fun _ => false,
      fun _ => ⟨none, InstallOutcome.ok, none, fun _ => (false, none), 0,
        false⟩⟩ 0 rfl

/-- A run environment whose cancellation flag is already set when the loop
reaches every job: both jobs are marked Cancelled by the pre-job check. -/
def envCancelledFromStart : RunEnv :=
  ⟨none, false, false, fun _ => true,
    fun _ => ⟨none, InstallOutcome.ok, none, fun _ => (false, none), 0,
      false⟩⟩

/-- C2 counterexample: with cancellation requested before the loop starts,
both jobs reach the terminal status Cancelled, yet the run publishes zero
progress events — the `continue` in the cancel-skip path bypasses the
progress publication the claim promises after every terminal job. -/
theorem progress_after_cancel_skip_cex :
    countProgress (run envCancelledFromStart none
        [DeviceUpdateResult.mk0 "a", DeviceUpdateResult.mk0 "b"] 0).events
        = 0 ∧
      ((run envCancelledFromStart none
        [DeviceUpdateResult.mk0 "a", DeviceUpdateResult.mk0 "b"] 0).queue.map
          (fun r => r.status)) = [STATUS_CANCELLED, STATUS_CANCELLED] := by
  constructor <;> rfl

/-- Number of loop slots `i, i+1, ...` over `n` jobs at which the pre-job
cancellation check passes (flag unset), i.e. the jobs actually handed to
`_update_single`. -/
def countRunSlots (pre : Nat → Bool) (i : Nat) : Nat → Nat
  | 0 => 0
  | n + 1 => (if pre i then 0 else 1) + countRunSlots pre (i + 1) n

theorem countProgress_append (evs evs2 : List Event) :
    countProgress (evs ++ evs2) = countProgress evs + countProgress evs2 := by
  simp [countProgress, List.filter_append]

theorem runJobs_progress_count (env : RunEnv)
    (hinst : ∀ i, (env.jobs i).install ≠ InstallOutcome.cancelledErr) :
    ∀ (pending : List DeviceUpdateResult) (i : Nat)
      (done : List DeviceUpdateResult) (c : Nat) (evs : List Event),
      countProgress (runJobs env pending i done c evs).events
        = countProgress evs + countRunSlots env.preCancel i pending.length := by
  intro pending
  induction pending with
  | nil => intro i done c evs; simp [runJobs, countRunSlots]
  | cons hd tl ih =>
      intro i done c evs
      by_cases hp : env.preCancel i
      · simp [runJobs, hp, ih, countRunSlots]
      · have hr := update_single_raised (env.jobs i) hd c (hinst i)
        simp only [runJobs, hp, if_false, Bool.false_eq_true, hr, ih,
          countRunSlots, countProgress_append, List.length_cons]
        simp [countProgress, isProgressEvent]
        omega

theorem runJobs_progress_full (env : RunEnv) (N : Nat) :
    ∀ (pending : List DeviceUpdateResult) (i : Nat)
      (done : List DeviceUpdateResult) (c : Nat) (evs : List Event),
      (∀ rs sm, Event.progress rs sm ∈ evs → rs.length = N) →
      done.length + pending.length = N →
      ∀ rs sm,
        Event.progress rs sm ∈ (runJobs env pending i done c evs).events →
        rs.length = N := by
  intro pending
  induction pending with
  | nil =>
      intro i done c evs hevs _ rs sm hmem
      exact hevs rs sm hmem
  | cons hd tl ih =>
      intro i done c evs hevs hlen rs sm hmem
      by_cases hp : env.preCancel i
      · simp only [runJobs, hp, if_true] at hmem
        refine ih (i + 1) _ c evs hevs ?_ rs sm hmem
        simp at hlen ⊢
        omega
      · simp only [runJobs, hp, if_false, Bool.false_eq_true] at hmem
        by_cases hrc :
            (update_single (env.jobs i) hd c).raisedCancelled = true
        · simp only [hrc, if_true] at hmem
          exact hevs rs sm hmem
        · simp only [hrc, if_false, Bool.false_eq_true] at hmem
          refine ih (i + 1) _ _ _ ?_ ?_ rs sm hmem
          · intro rs2 sm2 hm2
            rcases List.mem_append.mp hm2 with hm2 | hm2
            · exact hevs rs2 sm2 hm2
            · simp at hm2
              rw [hm2.1]
              simp [results]
              simp at hlen
              omega
          · simp at hlen ⊢
            omega

/-- C2 amended: a progress event carrying the full current results/summary
snapshot is published after each job the pre-job cancellation check hands to
the job state machine (success, failure, skip, or cancel during the job),
before the next job is processed; a job marked Cancelled by the pre-job
check is skipped without a progress event.  Formally: the run publishes
exactly one progress event per executed slot, and every progress event
carries a results list covering the whole batch. -/
theorem progress_per_executed_job (env : RunEnv) (slug : Option String)
    (q : List DeviceUpdateResult) (c0 : Nat)
    (hinst : ∀ i, (env.jobs i).install ≠ InstallOutcome.cancelledErr) :
    countProgress (run env slug q c0).events
        = countRunSlots env.preCancel 0 q.length ∧
      ∀ rs sm, Event.progress rs sm ∈ (run env slug q c0).events →
        rs.length = q.length := by
  constructor
  · unfold run
    simp only [countProgress_append]
    have h := runJobs_progress_count env hinst q 0 [] c0 []
    simp [countProgress, isProgressEvent] at h ⊢
    omega
  · intro rs sm hmem
    unfold run at hmem
    simp only [List.mem_append] at hmem
    rcases hmem with hmem | hmem
    · exact runJobs_progress_full env q.length q 0 [] c0 []
        (by intro rs2 sm2 h2; simp at h2) (by simp) rs sm hmem
    · simp at hmem

theorem progress_per_executed_job_witness :
    countProgress (run envCancelledFromStart none
          [DeviceUpdateResult.mk0 "a"] 0).events
        = countRunSlots envCancelledFromStart.preCancel 0 1 := by
  have h := progress_per_executed_job envCancelledFromStart none
    [DeviceUpdateResult.mk0 "a"] 0 (fun i h => by
      simp [envCancelledFromStart] at h)
  simpa using h.1

/-- A job as `start` created it: Queued with empty fields. -/
def Untouched (r : DeviceUpdateResult) : Prop :=
  r.status = STATUS_QUEUED ∧ r.started_at = none ∧ r.finished_at = none ∧
    r.error = none

/-- A job that never started is exactly a fresh job demoted to Cancelled:
status Cancelled, and the timestamp and error fields still empty. -/
def CancelClean (r : DeviceUpdateResult) : Prop :=
  r.started_at = none →
    r.status = STATUS_CANCELLED ∧ r.finished_at = none ∧ r.error = none

/-- Mid-run variant of `CancelClean`: a never-started job may also still be
Queued (it becomes Cancelled in the forced-cancellation handler). -/
def LoopSafe (r : DeviceUpdateResult) : Prop :=
  r.started_at = none →
    (r.status = STATUS_CANCELLED ∨ r.status = STATUS_QUEUED) ∧
      r.finished_at = none ∧ r.error = none

theorem cancelClean_loopSafe (r : DeviceUpdateResult) (h : CancelClean r) :
    LoopSafe r := by
  intro hs
  obtain ⟨h1, h2, h3⟩ := h hs
  exact ⟨Or.inl h1, h2, h3⟩

theorem runJobs_cancel_clean (env : RunEnv) :
    ∀ (pending : List DeviceUpdateResult) (i : Nat)
      (done : List DeviceUpdateResult) (c : Nat) (evs : List Event),
      (∀ r ∈ pending, Untouched r) → (∀ r ∈ done, CancelClean r) →
      (∀ r ∈ (runJobs env pending i done c evs).queue, LoopSafe r) ∧
        ((runJobs env pending i done c evs).raised = false →
          ∀ r ∈ (runJobs env pending i done c evs).queue, CancelClean r) := by
  intro pending
  induction pending with
  | nil =>
      intro i done c evs _ hdone
      constructor
      · intro r hr
        exact cancelClean_loopSafe r (hdone r (by simpa [runJobs] using hr))
      · intro _ r hr
        exact hdone r (by simpa [runJobs] using hr)
  | cons hd tl ih =>
      intro i done c evs hpend hdone
      have hhd : Untouched hd := hpend hd (by simp)
      have htl : ∀ r ∈ tl, Untouched r := fun r hr => hpend r (by simp [hr])
      by_cases hp : env.preCancel i
      · have hdone2 :
            ∀ r ∈ done ++ [{ hd with status := STATUS_CANCELLED }],
              CancelClean r := by
          intro r hr
          rcases List.mem_append.mp hr with hr | hr
          · exact hdone r hr
          · simp at hr
            subst hr
            intro _
            exact ⟨rfl, hhd.2.2.1, hhd.2.2.2⟩
        have h := ih (i + 1) (done ++ [{ hd with status := STATUS_CANCELLED }])
          c evs htl hdone2
        simpa [runJobs, hp] using h
      · have hstart := update_single_started (env.jobs i) hd c
        by_cases hrc :
            (update_single (env.jobs i) hd c).raisedCancelled = true
        · constructor
          · intro r hr
            simp only [runJobs, hp, if_false, Bool.false_eq_true, hrc,
              if_true] at hr
            rcases List.mem_append.mp hr with hr | hr
            · rcases List.mem_append.mp hr with hr | hr
              · exact cancelClean_loopSafe r (hdone r hr)
              · simp at hr
                subst hr
                intro hs
                rw [hstart] at hs
                exact absurd hs (by simp)
            · have hu := htl r hr
              intro _
              exact ⟨Or.inr hu.1, hu.2.2.1, hu.2.2.2⟩
          · intro hraised
            simp [runJobs, hp, hrc] at hraised
        · have h := ih (i + 1)
            (done ++ [(update_single (env.jobs i) hd c).item])
            (update_single (env.jobs i) hd c).clock
            (evs ++ [Event.progress
              (results (done ++ [(update_single (env.jobs i) hd c).item]
                ++ tl))
              (summary (done ++ [(update_single (env.jobs i) hd c).item]
                ++ tl))])
            htl ?_
          · simpa [runJobs, hp, hrc] using h
          · intro r hr
            rcases List.mem_append.mp hr with hr | hr
            · exact hdone r hr
            · simp at hr
              subst hr
              intro hs
              rw [hstart] at hs
              exact absurd hs (by simp)

theorem cancelHandler_cancel_clean :
    ∀ (q : List DeviceUpdateResult) (c : Nat),
      (∀ r ∈ q, LoopSafe r) →
      ∀ r ∈ (cancelHandler q c).1, CancelClean r := by
  intro q
  induction q with
  | nil => intro c _ r hr; simp [cancelHandler] at hr
  | cons it rest ih =>
      intro c hsafe r hr
      have hit : LoopSafe it := hsafe it (by simp)
      have hrest : ∀ x ∈ rest, LoopSafe x :=
        fun x hx => hsafe x (by simp [hx])
      by_cases hq : (it.status == STATUS_QUEUED) = true
      · simp only [cancelHandler, hq, if_true] at hr
        rcases List.mem_cons.mp hr with hr | hr
        · subst hr
          intro hs
          have hs2 : it.started_at = none := hs
          obtain ⟨_, h2, h3⟩ := hit hs2
          exact ⟨rfl, h2, h3⟩
        · exact ih c hrest r hr
      · have hq2 : it.status ≠ STATUS_QUEUED := by
          simpa [beq_iff_eq] using hq
        by_cases hrn : (it.status == STATUS_RUNNING) = true
        · have hrn2 : it.status = STATUS_RUNNING := by
            simpa [beq_iff_eq] using hrn
          simp only [cancelHandler, hq, hrn, if_true, if_false,
            Bool.false_eq_true] at hr
          rcases List.mem_cons.mp hr with hr | hr
          · subst hr
            intro hs
            have hs2 : it.started_at = none := hs
            obtain ⟨h1, _, _⟩ := hit hs2
            rcases h1 with h1 | h1
            · rw [hrn2] at h1
              exact absurd h1 (by decide)
            · exact absurd h1 hq2
          · exact ih (c + 1) hrest r hr
        · simp only [cancelHandler, hq, hrn, if_false,
            Bool.false_eq_true] at hr
          rcases List.mem_cons.mp hr with hr | hr
          · subst hr
            intro hs
            obtain ⟨h1, h2, h3⟩ := hit hs
            rcases h1 with h1 | h1
            · exact ⟨h1, h2, h3⟩
            · exact absurd h1 hq2
          · exact ih c hrest r hr

/-- C9: in a run launched on fresh Queued jobs, every job that was marked
Cancelled without ever starting — whether by the cooperative pre-job check
or by the forced-cancellation handler — still has empty started, finished
and error fields: only its status moved, from Queued to Cancelled. -/
theorem cancel_without_start_frame (env : RunEnv) (slug : Option String)
    (ids : List String) (c0 : Nat) (r : DeviceUpdateResult)
    (hr : r ∈ (run env slug (ids.map DeviceUpdateResult.mk0) c0).queue)
    (hs : r.started_at = none) :
    r.status = STATUS_CANCELLED ∧ r.finished_at = none ∧ r.error = none := by
  have hfresh : ∀ x ∈ ids.map DeviceUpdateResult.mk0, Untouched x := by
    intro x hx
    simp only [List.mem_map] at hx
    obtain ⟨eid, _, hx⟩ := hx
    subst hx
    exact ⟨rfl, rfl, rfl, rfl⟩
  have hloop := runJobs_cancel_clean env (ids.map DeviceUpdateResult.mk0)
    0 [] c0 [] hfresh (by intro x hx; simp at hx)
  unfold run at hr
  by_cases hraised :
      (runJobs env (ids.map DeviceUpdateResult.mk0) 0 [] c0 []).raised
        = true
  · simp only [hraised, if_true] at hr
    exact cancelHandler_cancel_clean _ _ hloop.1 r hr hs
  · simp only [hraised, if_false, Bool.false_eq_true] at hr
    exact hloop.2 (by simpa using hraised) r hr hs

/-- A one-job run whose pre-job check sees the cancellation flag set. -/
def envCancelSkipOne : RunEnv :=
  ⟨none, false, false, fun _ => true,
    fun _ => ⟨none, InstallOutcome.ok, none, fun _ => (false, none), 0,
      false⟩⟩

theorem cancel_without_start_frame_witness :
    (⟨"a", STATUS_CANCELLED, none, none, none⟩ :
        DeviceUpdateResult).status = STATUS_CANCELLED ∧
      (⟨"a", STATUS_CANCELLED, none, none, none⟩ :
        DeviceUpdateResult).finished_at = none ∧
      (⟨"a", STATUS_CANCELLED, none, none, none⟩ :
        DeviceUpdateResult).error = none :=
  cancel_without_start_frame envCancelSkipOne none ["a"] 0
    ⟨"a", STATUS_CANCELLED, none, none, none⟩ (by decide) rfl

end EspUpdateManager
